import Mathlib

/-!
Verification of PSD fixture generators against their natural-language
specification.  The Python sources under `src/fixtures` and
`src/web/tests/fixtures` are shallowly embedded: byte strings become
`List Nat` (each entry a byte value), `struct.pack` calls become explicit
big-endian byte lists, and loops become structural recursion.  The
decoder and compositor the spec describes are not part of the repository
sources; where a claim needs them they are modelled from the spec's
words and marked as such.

The file is organised as definitions first, then theorems.
-/

namespace PSD

/-! ## Byte packing helpers (embedding `struct.pack` big-endian formats) -/

/-- `struct.pack(">H", n)`: big-endian unsigned 16-bit integer. -/
def pack_u16 (n : Nat) : List Nat := [n / 256 % 256, n % 256]

/-- `struct.pack(">I", n)`: big-endian unsigned 32-bit integer. -/
def pack_u32 (n : Nat) : List Nat :=
  [n / 16777216 % 256, n / 65536 % 256, n / 256 % 256, n % 256]

/-- `struct.pack(">Q", n)`: big-endian unsigned 64-bit integer. -/
def pack_u64 (n : Nat) : List Nat :=
  pack_u32 (n / 4294967296) ++ pack_u32 (n % 4294967296)

/-- `struct.pack(">h", n)`: big-endian signed 16-bit, two's complement. -/
def pack_i16 (n : Int) : List Nat := pack_u16 ((n % 65536).toNat)

/-- `struct.pack(">i", n)`: big-endian signed 32-bit, two's complement. -/
def pack_i32 (n : Int) : List Nat := pack_u32 ((n % 4294967296).toNat)

/-- Big-endian read of two bytes (inverse direction of `pack_u16`). -/
def unpack_u16 (b : List Nat) : Nat := b.headD 0 * 256 + (b.drop 1).headD 0

/-- Big-endian read of four bytes (inverse direction of `pack_u32`). -/
def unpack_u32 (b : List Nat) : Nat :=
  ((b.headD 0 * 256 + (b.drop 1).headD 0) * 256 + (b.drop 2).headD 0) * 256
    + (b.drop 3).headD 0

/-- `b"8BPS"` (file signature). -/
def sig8BPS : List Nat := [56, 66, 80, 83]

/-- `b"8BIM"` (blend / resource / ALI signature). -/
def sig8BIM : List Nat := [56, 66, 73, 77]

/-- `b"norm"` blend mode key. -/
def keyNorm : List Nat := [110, 111, 114, 109]

/-- `b"lsct"` ALI key (section divider). -/
def keyLsct : List Nat := [108, 115, 99, 116]

/-- `b"Lr16"` ALI key (16-bit global layer section). -/
def keyLr16 : List Nat := [76, 114, 49, 54]

/-! ## PackBits encoder

Embedding of `packbits_encode` from `src/fixtures/generate_fixtures.py`.
The Python routine walks an index `i` over `data`; here the remaining
suffix `data[i:]` is the recursion argument and the length of the
original input serves as fuel (each loop iteration consumes at least one
input byte, so `data.length` iterations always suffice).
-/

/-- Length of the run of elements equal to `v` at the head of the list
(the inner `run_len` scan, before the 128 cap is applied). -/
def leadEq (v : Nat) : List Nat → Nat
  | [] => 0
  | a :: t => if a = v then leadEq v t + 1 else 0

/-- The literal scan (`lit_len` loop): starting one position past the
head, advance while bytes remain and fewer than 128 literals are taken,
stopping early when the next three bytes are equal (a run worth
breaking for).  `fuel` is the number of increments still allowed. -/
def litAux : Nat → List Nat → Nat
  | 0, _ => 0
  | _ + 1, [] => 0
  | fuel + 1, a :: t =>
    match t with
    | b :: c :: _ => if b = a ∧ c = a then 0 else litAux fuel t + 1
    | _ => litAux fuel t + 1

/-- One pass of the `while i < n` loop of `packbits_encode`, on the
remaining suffix. -/
def encodeAux : Nat → List Nat → List Nat
  | 0, _ => []
  | _ + 1, [] => []
  | fuel + 1, x :: rest =>
    let r := min (leadEq x rest + 1) 128
    if 3 ≤ r then
      (257 - r) % 256 :: x :: encodeAux fuel (rest.drop (r - 1))
    else
      let L := litAux 127 rest + 1
      (L - 1) :: ((x :: rest).take L ++ encodeAux fuel ((x :: rest).drop L))

/-- `packbits_encode(data)` from `src/fixtures/generate_fixtures.py`. -/
def packbits_encode (data : List Nat) : List Nat := encodeAux data.length data

/-! ## PackBits decoder

Modelled from the spec: "PackBits grammar: a signed control byte; if in
[0,127], copy the next (control+1) literal bytes; if in [-127,-1],
repeat the next single byte (1-control) times; -128 is a no-op."  The
decoder itself is not part of the repository sources, only its fixture
producers are.  Control bytes are unsigned byte values here: `c ≤ 127`
is the literal range, `c = 128` is the no-op `-128`, and `129 ≤ c`
encodes the signed value `c - 256`, so the repeat count `1 - (c - 256)`
is `257 - c`.  A truncated stream decodes to `none`.  Every step
consumes at least the control byte, so the input length is enough fuel
and the `0` fuel case is only reached on the empty stream. -/
def pb_decodeAux : Nat → List Nat → Option (List Nat)
  | _, [] => some []
  | 0, _ :: _ => none
  | fuel + 1, c :: rest =>
    if c ≤ 127 then
      if c + 1 ≤ rest.length then
        (pb_decodeAux fuel (rest.drop (c + 1))).map (fun d => rest.take (c + 1) ++ d)
      else
        none
    else if c = 128 then
      pb_decodeAux fuel rest
    else
      match rest with
      | [] => none
      | v :: rest' =>
        (pb_decodeAux fuel rest').map (fun d => List.replicate (257 - c) v ++ d)

/-- PackBits decoding of a complete stream, per the spec grammar. -/
def pb_decode (l : List Nat) : Option (List Nat) := pb_decodeAux l.length l

/-- Control-byte discipline checker: walks a PackBits stream chunk by
chunk and demands every control byte be a literal control in `[0,127]`
(with its `control+1` payload bytes present) or a repeat control in
`[129,254]` (signed `[-127,-2]`, with its value byte present).  The
no-op `128` (signed `-128`) and the repeat control `255` (signed `-1`)
are rejected, as is a stream with more chunks than fuel. -/
def controlsOk : Nat → List Nat → Bool
  | _, [] => true
  | 0, _ :: _ => false
  | fuel + 1, c :: rest =>
    if c ≤ 127 then
      decide (c + 1 ≤ rest.length) && controlsOk fuel (rest.drop (c + 1))
    else if 129 ≤ c ∧ c ≤ 254 then
      match rest with
      | [] => false
      | _ :: rest' => controlsOk fuel rest'
    else
      false

/-! ## Fixture builders from `src/fixtures/generate_fixtures.py` -/

/-- `make_header(channels, height, width, depth, color_mode, version)`:
the 26-byte PSD file header. -/
def make_header (channels height width depth color_mode version : Nat) : List Nat :=
  sig8BPS ++ pack_u16 version ++ List.replicate 6 0 ++ pack_u16 channels ++
    pack_u32 height ++ pack_u32 width ++ pack_u16 depth ++ pack_u16 color_mode

/-- The byte string written by `generate_phase0_minimal`: minimal 1x1
RGB 8-bit document, Raw compression, all section lengths zero. -/
def generate_phase0_minimal : List Nat :=
  make_header 3 1 1 8 3 1 ++ pack_u32 0 ++ pack_u32 0 ++ pack_u32 0 ++
    pack_u16 0 ++ List.replicate 3 0

/-- The byte string written by `generate_phase5_psb_minimal`: the
version-2 (PSB) minimal document; the layer-and-mask length is a
`">Q"` (8-byte) field where the version-1 file used `">I"`. -/
def generate_phase5_psb_minimal : List Nat :=
  sig8BPS ++ pack_u16 2 ++ List.replicate 6 0 ++ pack_u16 3 ++ pack_u32 1 ++
    pack_u32 1 ++ pack_u16 8 ++ pack_u16 3 ++ pack_u32 0 ++ pack_u32 0 ++
    pack_u64 0 ++ pack_u16 0 ++ List.replicate 3 0

/-- Padding after the Pascal-string name: `(4 - ((1 + len(name)) % 4)) % 4`. -/
def layerNamePad (nameLen : Nat) : Nat := (4 - (1 + nameLen) % 4) % 4

/-- The extra-data block built by `make_layer_record`: two zero length
fields (mask data, blending ranges), then the Pascal-string name padded
to a 4-byte boundary. -/
def mlr_extra (name : List Nat) : List Nat :=
  pack_u32 0 ++ pack_u32 0 ++ (name.length :: name) ++
    List.replicate (layerNamePad name.length) 0

/-- The fixed part of a layer record, everything before the extra-data
length field: bounds, channel-info table, blend signature and mode,
opacity, clipping `0`, flags `0x02`, filler `0`. -/
def mlr_fixed (top left bottom right : Int) (channels : List Int)
    (blend_mode : List Nat) (opacity : Nat)
    (channel_data_lengths : List Nat) : List Nat :=
  pack_i32 top ++ pack_i32 left ++ pack_i32 bottom ++ pack_i32 right ++
    pack_u16 channels.length ++
    ((channels.zip channel_data_lengths).map
        (fun p => pack_i16 p.1 ++ pack_u32 p.2)).flatten ++
    sig8BIM ++ blend_mode ++ [opacity] ++ [0] ++ [2] ++ [0]

/-- `make_layer_record` from `src/fixtures/generate_fixtures.py`. -/
def make_layer_record (top left bottom right : Int) (channels : List Int)
    (blend_mode : List Nat) (opacity : Nat) (name : List Nat)
    (channel_data_lengths : List Nat) : List Nat :=
  mlr_fixed top left bottom right channels blend_mode opacity channel_data_lengths ++
    pack_u32 (mlr_extra name).length ++ mlr_extra name

/-- `build_layer_record_with_ali` (nested in `generate_phase6_layer_group`):
identical to `make_layer_record` except the ALI bytes are appended to
the extra-data block after the padded name. -/
def build_layer_record_with_ali (top left bottom right : Int) (ch_ids : List Int)
    (blend_mode : List Nat) (opacity : Nat) (name : List Nat)
    (channel_data_lengths : List Nat) (ali_data : List Nat) : List Nat :=
  mlr_fixed top left bottom right ch_ids blend_mode opacity channel_data_lengths ++
    pack_u32 (mlr_extra name ++ ali_data).length ++ (mlr_extra name ++ ali_data)

/-- Scanline `r` of `raw_data` as sliced by `make_rle_channel_data`:
`raw_data[row*width : (row+1)*width]` with `width = len(raw_data) // height`. -/
def rleRow (raw : List Nat) (height r : Nat) : List Nat :=
  (raw.drop (r * (raw.length / height))).take (raw.length / height)

/-- `make_rle_channel_data(raw_data, height)`: compression code `1`,
then one big-endian u16 byte count per scanline, then the PackBits
encodings of the scanlines in row order.  `struct.pack(">H", len(enc))`
raises in Python when an encoded scanline exceeds 65535 bytes; that
failure case is `none` here. -/
def make_rle_channel_data (raw : List Nat) (height : Nat) : Option (List Nat) :=
  let rows := (List.range height).map (fun r => packbits_encode (rleRow raw height r))
  if rows.all (fun e => e.length < 65536) then
    some (pack_u16 1 ++ (rows.map (fun e => pack_u16 e.length)).flatten ++ rows.flatten)
  else
    none

/-! ## Phase-3 single-layer fixture and the §4.6 compositing rules

`generate_phase3_single_layer` writes a 4x4 RGB document with one layer:
bounds covering the canvas, blend mode `norm`, opacity 255, flags byte
`0x02`, red channel data (R plane all 255, G and B planes all 0), and a
Section-5 merged image with the same three planes.
-/

/-- The flags byte `generate_phase3_single_layer` writes for its layer
(`struct.pack("B", 0x02)`, commented "flags (visible)"). -/
def phase3_flags : Nat := 2

/-- The opacity byte of the phase-3 layer. -/
def phase3_opacity : Nat := 255

/-- The three channel planes of the phase-3 layer (R all 255, G and B
all 0; 16 pixels each). -/
def phase3_layer_planes : List (List Nat) :=
  [List.replicate 16 255, List.replicate 16 0, List.replicate 16 0]

/-- The Section-5 merged image planes written by
`generate_phase3_single_layer` (identical red planes). -/
def phase3_merged_planes : List (List Nat) :=
  [List.replicate 16 255, List.replicate 16 0, List.replicate 16 0]

/-- The merged-image pixel at flat index `i` as an (R,G,B) triple. -/
def phase3_merged_pixel (i : Nat) : Nat × Nat × Nat :=
  ((phase3_merged_planes.headD []).getD i 0,
   ((phase3_merged_planes.drop 1).headD []).getD i 0,
   ((phase3_merged_planes.drop 2).headD []).getD i 0)

/-- Modelled from the spec: "flags bitmask (bit0=transparency-protected,
bit1=hidden, ...)"; a layer is visible when bit 1 of its flags byte is
clear.  The flag-interpreting decoder is not in the sources. -/
def layerVisible (flags : Nat) : Bool := !(flags.testBit 1)

/-- Modelled from the spec (§4.6): leaf compositing.  "For a leaf node:
if not visible, contributes nothing; otherwise ... `effectiveAlpha =
(sampleAlpha/255) * (layerOpacity/255)`; blended channel =
`src*effectiveAlpha + dst*(1-effectiveAlpha)` per RGB channel, with
output alpha accumulated as `1-(1-effectiveAlpha)*(1-dstAlpha)`".
Channels are rationals in `[0,255]`, alpha a rational in `[0,1]`. -/
def compositeLeaf (visible : Bool) (opacity sampleAlpha : Nat)
    (srcR srcG srcB : ℚ) (dst : ℚ × ℚ × ℚ × ℚ) : ℚ × ℚ × ℚ × ℚ :=
  if visible then
    let ea : ℚ := ((sampleAlpha : ℚ) / 255) * ((opacity : ℚ) / 255)
    (srcR * ea + dst.1 * (1 - ea),
     srcG * ea + dst.2.1 * (1 - ea),
     srcB * ea + dst.2.2.1 * (1 - ea),
     1 - (1 - ea) * (1 - dst.2.2.2))
  else
    dst

/-- §4.6 tree composite of the phase-3 document at any canvas pixel:
one leaf (uniform red, no alpha channel so the sample alpha is 255)
over the transparent accumulator, with the layer's stored flags and
opacity. -/
def phase3_composite : ℚ × ℚ × ℚ × ℚ :=
  compositeLeaf (layerVisible phase3_flags) phase3_opacity 255
    255 0 0 (0, 0, 0, 0)

/-! ## Hidden-group fixture, `src/web/tests/fixtures/generate_hidden_group_psd.py`

The `LAYERS` table, bottom to top: a flat visible Blue layer, a type-3
close marker, a visible Red leaf inside the group, and the type-1 group
open marker with the hidden flag set.  `main` writes the Section-5
composite by initialising a 64x64 canvas to white and painting only the
Blue layer's rectangle (the Red leaf sits inside the hidden group).
-/

/-- One entry of the `LAYERS` table of `generate_hidden_group_psd.py`. -/
structure HGLayer where
  color : Option (Nat × Nat × Nat × Nat)
  x : Nat
  y : Nat
  w : Nat
  h : Nat
  opacity : Nat
  divider : Option Nat
  hidden : Bool
deriving DecidableEq

/-- The `LAYERS` list (bottom to top). -/
def HG_LAYERS : List HGLayer :=
  [⟨some (0, 0, 255, 255), 4, 4, 32, 32, 255, none, false⟩,
   ⟨none, 0, 0, 0, 0, 255, some 3, true⟩,
   ⟨some (255, 0, 0, 255), 16, 16, 32, 32, 255, none, false⟩,
   ⟨none, 0, 0, 0, 0, 255, some 1, true⟩]

/-- Painting one opaque colour layer over a canvas function: the loop
`for py in range(y, min(y+h, H)): for px in range(x, min(x+w, W)):
composite[py][px] = [r, g, b, 255]` (canvas is 64x64). -/
def paintLayer (l : HGLayer) (g : Nat → Nat → List Nat) : Nat → Nat → List Nat :=
  match l.color with
  | none => g
  | some (r, gr, b, _) => fun py px =>
    if l.y ≤ py ∧ py < min (l.y + l.h) 64 ∧ l.x ≤ px ∧ px < min (l.x + l.w) 64 then
      [r, gr, b, 255]
    else
      g py px

/-- Paint a list of layers bottom-to-top over a canvas. -/
def paintLayers (ls : List HGLayer) (g : Nat → Nat → List Nat) : Nat → Nat → List Nat :=
  match ls with
  | [] => g
  | l :: t => paintLayers t (paintLayer l g)

/-- The all-white initial canvas (`[[[255,255,255,255] ...]]`). -/
def whiteCanvas : Nat → Nat → List Nat := fun _ _ => [255, 255, 255, 255]

/-- The Section-5 composite `main` writes: white canvas with only the
Blue layer (`LAYERS[0]`) painted. -/
def hg_composite : Nat → Nat → List Nat :=
  paintLayers [HG_LAYERS.headD ⟨none, 0, 0, 0, 0, 255, none, false⟩] whiteCanvas

/-- Modelled from the spec (§4.5/§4.6): the paintable leaves of the
hidden-group document once group visibility is applied — a leaf between
a type-3 close marker and a hidden type-1 open marker is fully
suppressed, so only layers outside hidden groups survive.  For this
fixed four-record list the surviving list is the Blue leaf alone;
equivalently, the Red leaf is entirely removed. -/
def hg_visibleLayers : List HGLayer :=
  HG_LAYERS.filter (fun l => l.divider.isNone && !(betweenHiddenGroup l))
where
  /-- The Red leaf is the only record inside the hidden group. -/
  betweenHiddenGroup (l : HGLayer) : Bool := l.color = some (255, 0, 0, 255)

/-! ## 16-bit grouped fixture, `src/web/tests/fixtures/generate_16bit_grouped_psd.py` -/

/-- One entry of the `LAYERS` table of `generate_16bit_grouped_psd.py`. -/
structure P16Layer where
  name : List Nat
  color : Option (Nat × Nat × Nat × Nat)
  x : Nat
  y : Nat
  w : Nat
  h : Nat
  opacity : Nat
  divider : Option Nat
deriving DecidableEq

/-- The `LAYERS` list (bottom to top): Blue flat, type-3 close marker,
Red and Green inside the "Shapes" group, type-1 open marker. -/
def LAYERS16 : List P16Layer :=
  [⟨[66, 108, 117, 101], some (255, 0, 0, 255), 28, 28, 32, 32, 255, none⟩,
   ⟨[60, 47, 76, 97, 121, 101, 114, 32, 115, 101, 116, 62], none, 0, 0, 0, 0, 255, some 3⟩,
   ⟨[82, 101, 100], some (255, 0, 0, 255), 4, 4, 32, 32, 255, none⟩,
   ⟨[71, 114, 101, 101, 110], some (0, 255, 0, 255), 16, 16, 32, 32, 128, none⟩,
   ⟨[83, 104, 97, 112, 101, 115], none, 0, 0, 0, 0, 255, some 1⟩]

/-- `make_lsct(divider_type)`: an `lsct` ALI block,
`8BIM + lsct + length(4) + divider_type(4)`. -/
def make_lsct (divider_type : Nat) : List Nat :=
  sig8BIM ++ keyLsct ++ pack_u32 4 ++ pack_u32 divider_type

/-- `b ++ b ++ ... ++ b` (`n` copies): the `for _ in range(n)` write loop. -/
def repBytes : Nat → List Nat → List Nat
  | 0, _ => []
  | n + 1, b => b ++ repBytes n b

/-- The per-channel declared data lengths in a 16-bit layer record:
`2 + pixel_count * bytes_per_sample` for a colour layer, `2` for a
divider record. -/
def p16DeclaredLen (depth : Nat) (l : P16Layer) : Nat :=
  match l.color with
  | some _ => 2 + l.w * l.h * (depth / 8)
  | none => 2

/-- The channel-info table of a 16-bit layer record: channel count 4,
then `(channelId, dataLength)` pairs for ids `[-1, 0, 1, 2]`. -/
def p16ChannelTable (depth : Nat) (l : P16Layer) : List Nat :=
  pack_u16 4 ++
    (([-1, 0, 1, 2] : List Int).map
        (fun ch => pack_i16 ch ++ pack_u32 (p16DeclaredLen depth l))).flatten

/-- One layer record of `build_layer_section`: bounds (`>IIII` of
y, x, y+h, x+w), channel table, blend signature and `norm` key,
opacity, clipping `0`, flags (`2` iff the record is the type-3 divider),
filler, then the extra-data block (two zero length fields, padded
Pascal name, and the `lsct` block for divider records). -/
def p16LayerRecord (depth : Nat) (l : P16Layer) : List Nat :=
  pack_u32 l.y ++ pack_u32 l.x ++ pack_u32 (l.y + l.h) ++ pack_u32 (l.x + l.w) ++
    p16ChannelTable depth l ++
    sig8BIM ++ keyNorm ++ [l.opacity] ++ [0] ++
    [if l.divider = some 3 then 2 else 0] ++ [0] ++
    pack_u32 (4 + 4 + (1 + l.name.length + layerNamePad l.name.length) +
      (p16Ali l).length) ++
    pack_u32 0 ++ pack_u32 0 ++ (l.name.length :: l.name) ++
    List.replicate (layerNamePad l.name.length) 0 ++ p16Ali l
where
  /-- The ALI bytes of the record: an `lsct` block iff the layer is a divider. -/
  p16Ali (l : P16Layer) : List Nat :=
    match l.divider with
    | some t => make_lsct t
    | none => []

/-- The channel image data of one layer in `build_layer_section`: for a
colour layer, per channel value in `[a, r, g, b]` a Raw compression code
followed by `pixel_count` big-endian 16-bit samples of `value * 257`;
for a divider record, four bare Raw compression codes. -/
def p16ChannelData (l : P16Layer) : List Nat :=
  match l.color with
  | some (r, g, b, a) =>
    ([a, r, g, b].map (fun v => pack_u16 0 ++ repBytes (l.w * l.h) (pack_u16 (v * 257)))).flatten
  | none => repBytes 4 (pack_u16 0)

/-- `build_layer_section(depth)`: signed-16 layer count, the layer
records in order, then the channel image data in the same order. -/
def build_layer_section (depth : Nat) : List Nat :=
  pack_i16 (LAYERS16.length : Int) ++
    (LAYERS16.map (p16LayerRecord depth)).flatten ++
    (LAYERS16.map p16ChannelData).flatten

/-- The `Lr16` ALI block built in `main`:
`8BIM + Lr16 + length(4) + layer_data`, padded to even length. -/
def lr16_ali : List Nat :=
  let layer_data := build_layer_section 16
  let b := sig8BIM ++ keyLr16 ++ pack_u32 layer_data.length ++ layer_data
  if b.length % 2 ≠ 0 then b ++ [0] else b

/-- The layer-and-mask section content of the 16-bit document: a zero
layer-info length, a zero global-mask length, then the `Lr16` block. -/
def lam_content16 : List Nat :=
  pack_u32 0 ++ pack_u32 0 ++ lr16_ali

/-- `val16 = ch_val * 257` — how the 16-bit fixture stores an 8-bit
channel value as a 16-bit sample. -/
def store_sample16 (ch_val : Nat) : Nat := ch_val * 257

/-- Modelled from the spec: the 16-bit downsampling rule
`v8 = round(v16/257)`, with round-half-up:
`round(v/257) = ⌊(2*v + 257) / 514⌋`. -/
def downsample8 (v16 : Nat) : Nat := (2 * v16 + 257) / 514

/-! ## Minimal decoder, modelled from the spec -/

/-- A decoded raster: dimensions, channel count, depth and one
row-major sample plane per channel (spec §3 "Raster"). -/
structure Raster where
  width : Nat
  height : Nat
  channelCount : Nat
  depth : Nat
  planes : List (List Nat)
deriving DecidableEq

/-- Modelled from the spec: the decode path for a minimal version-1
document (§4.1 header parse, §4.2/§4.3 sections skipped via their
4-byte length fields, §4.4 Raw channel decode of the Section-5 merged
image).  The decoder is not part of the repository sources.  It checks
the `8BPS` signature and version 1, reads the header fields, skips the
colour-mode, resource and layer-and-mask sections by their declared
lengths, requires Raw compression, RGB mode, depth 8 and an exactly
consistent byte count, and splits the remaining bytes into one plane
per channel. -/
def decodeMinimalDoc (b : List Nat) : Option Raster :=
  if b.take 4 = sig8BPS ∧ unpack_u16 (b.drop 4) = 1 then
    let channels := unpack_u16 (b.drop 12)
    let height := unpack_u32 (b.drop 14)
    let width := unpack_u32 (b.drop 18)
    let depth := unpack_u16 (b.drop 22)
    let colorMode := unpack_u16 (b.drop 24)
    let cmLen := unpack_u32 (b.drop 26)
    let resOff := 30 + cmLen
    let resLen := unpack_u32 (b.drop resOff)
    let lmOff := resOff + 4 + resLen
    let lmLen := unpack_u32 (b.drop lmOff)
    let imgOff := lmOff + 4 + lmLen
    let comp := unpack_u16 (b.drop imgOff)
    if comp = 0 ∧ colorMode = 3 ∧ depth = 8 ∧
        (b.drop (imgOff + 2)).length = channels * (width * height) then
      some ⟨width, height, channels, depth,
        (List.range channels).map
          (fun c => (b.drop (imgOff + 2 + c * (width * height))).take (width * height))⟩
    else
      none
  else
    none

/-! ## Theorems -/

theorem pack_u16_length (n : Nat) : (pack_u16 n).length = 2 := rfl

theorem pack_u32_length (n : Nat) : (pack_u32 n).length = 4 := rfl

theorem unpack_pack_u32 (n : Nat) (h : n < 4294967296) :
    unpack_u32 (pack_u32 n) = n := by
  simp only [pack_u32, unpack_u32, List.headD, List.drop]
  omega

theorem leadEq_take (v : Nat) : ∀ (l : List Nat) (k : Nat), k ≤ leadEq v l →
    l.take k = List.replicate k v := by
  intro l
  induction l with
  | nil =>
    intro k hk
    simp only [leadEq, Nat.le_zero] at hk
    subst hk
    simp
  | cons a t ih =>
    intro k hk
    cases k with
    | zero => simp
    | succ k' =>
      simp only [leadEq] at hk
      by_cases hav : a = v
      · subst hav
        rw [if_pos rfl] at hk
        simp only [List.take_succ_cons, List.replicate_succ]
        rw [ih k' (by omega)]
      · simp [if_neg hav] at hk

theorem litAux_le_length : ∀ (fuel : Nat) (t : List Nat), litAux fuel t ≤ t.length := by
  intro fuel
  induction fuel with
  | zero => intro t; simp [litAux]
  | succ f ih =>
    intro t
    cases t with
    | nil => simp [litAux]
    | cons a t' =>
      match t', ih t' with
      | [], iht => simp only [litAux]; simpa using iht
      | [b], iht => simp only [litAux]; simpa using iht
      | b :: c :: t'', iht =>
        simp only [litAux]
        split
        · simp
        · simpa using iht

theorem litAux_le_fuel : ∀ (fuel : Nat) (t : List Nat), litAux fuel t ≤ fuel := by
  intro fuel
  induction fuel with
  | zero => intro t; simp [litAux]
  | succ f ih =>
    intro t
    cases t with
    | nil => simp [litAux]
    | cons a t' =>
      match t' with
      | [] => simp only [litAux]; have := ih ([] : List Nat); omega
      | [b] => simp only [litAux]; have := ih [b]; omega
      | b :: c :: t'' =>
        simp only [litAux]
        split
        · omega
        · have := ih (b :: c :: t''); omega

/-- Each encoded chunk round-trips: decoding `encodeAux fuel s` with any
sufficient decode fuel recovers `s` exactly. -/
theorem pb_decodeAux_encodeAux :
    ∀ (fuel : Nat) (s : List Nat) (dfuel : Nat), s.length ≤ fuel →
      (encodeAux fuel s).length ≤ dfuel →
      pb_decodeAux dfuel (encodeAux fuel s) = some s := by
  intro fuel
  induction fuel with
  | zero =>
    intro s dfuel hs _
    rw [List.eq_nil_of_length_eq_zero (Nat.le_zero.mp hs)]
    cases dfuel <;> rfl
  | succ f ih =>
    intro s dfuel hs hd
    cases s with
    | nil => cases dfuel <;> rfl
    | cons x rest =>
      simp only [List.length_cons] at hs
      by_cases hrun : 3 ≤ min (leadEq x rest + 1) 128
      · -- run branch of the encoder
        have henc : encodeAux (f + 1) (x :: rest)
            = (257 - min (leadEq x rest + 1) 128) % 256 :: x ::
                encodeAux f (rest.drop (min (leadEq x rest + 1) 128 - 1)) := by
          simp only [encodeAux]
          rw [if_pos hrun]
        set r := min (leadEq x rest + 1) 128 with hrdef
        have hr128 : r ≤ 128 := min_le_right _ _
        have hrlead : r ≤ leadEq x rest + 1 := min_le_left _ _
        have hmod : (257 - r) % 256 = 257 - r := Nat.mod_eq_of_lt (by omega)
        rw [henc, hmod] at hd ⊢
        obtain ⟨d, rfl⟩ : ∃ d, dfuel = d + 1 := by
          cases dfuel
          · simp at hd
          · exact ⟨_, rfl⟩
        have hdec : pb_decodeAux (d + 1)
              ((257 - r) :: x :: encodeAux f (rest.drop (r - 1)))
            = (pb_decodeAux d (encodeAux f (rest.drop (r - 1)))).map
                (fun t => List.replicate (257 - (257 - r)) x ++ t) := by
          simp only [pb_decodeAux]
          rw [if_neg (by omega), if_neg (by omega)]
        rw [hdec]
        have hlen : (rest.drop (r - 1)).length ≤ f := by
          simp only [List.length_drop]; omega
        have hdlen : (encodeAux f (rest.drop (r - 1))).length ≤ d := by
          simp only [List.length_cons] at hd; omega
        rw [ih (rest.drop (r - 1)) d hlen hdlen]
        have h257 : 257 - (257 - r) = r := by omega
        have hrep : List.replicate r x = x :: List.replicate (r - 1) x := by
          conv_lhs => rw [show r = (r - 1) + 1 by omega]
          rw [List.replicate_succ]
        have htake : rest.take (r - 1) = List.replicate (r - 1) x :=
          leadEq_take x rest (r - 1) (by omega)
        rw [Option.map_some', h257, hrep, ← htake]
        simp [List.take_append_drop]
      · -- literal branch of the encoder
        have henc : encodeAux (f + 1) (x :: rest)
            = (litAux 127 rest + 1 - 1) ::
                ((x :: rest).take (litAux 127 rest + 1) ++
                  encodeAux f ((x :: rest).drop (litAux 127 rest + 1))) := by
          simp only [encodeAux]
          rw [if_neg hrun]
        set L := litAux 127 rest + 1 with hLdef
        have hLfuel : L - 1 ≤ 127 := by
          have := litAux_le_fuel 127 rest; omega
        have hLlen : L ≤ rest.length + 1 := by
          have := litAux_le_length 127 rest; omega
        rw [henc] at hd ⊢
        obtain ⟨d, rfl⟩ : ∃ d, dfuel = d + 1 := by
          cases dfuel
          · simp at hd
          · exact ⟨_, rfl⟩
        have htlen : ((x :: rest).take L).length = L := by
          simp only [List.length_take, List.length_cons]
          omega
        have hLsucc : L - 1 + 1 = L := by omega
        have hcond : L - 1 + 1 ≤
            ((x :: rest).take L ++ encodeAux f ((x :: rest).drop L)).length := by
          simp only [List.length_append, htlen]
          omega
        have hdec : pb_decodeAux (d + 1)
              ((L - 1) :: ((x :: rest).take L ++ encodeAux f ((x :: rest).drop L)))
            = (pb_decodeAux d
                  (((x :: rest).take L ++ encodeAux f ((x :: rest).drop L)).drop (L - 1 + 1))).map
                (fun t =>
                  (((x :: rest).take L ++ encodeAux f ((x :: rest).drop L)).take (L - 1 + 1)) ++ t) := by
          simp only [pb_decodeAux]
          rw [if_pos hLfuel, if_pos hcond]
        rw [hdec, hLsucc, List.take_left' htlen, List.drop_left' htlen]
        have hlen : ((x :: rest).drop L).length ≤ f := by
          simp only [List.length_drop, List.length_cons]
          omega
        have hdlen : (encodeAux f ((x :: rest).drop L)).length ≤ d := by
          simp only [List.length_cons, List.length_append, htlen] at hd
          omega
        rw [ih ((x :: rest).drop L) d hlen hdlen]
        rw [Option.map_some']
        simp [List.take_append_drop]

/-- Shared round-trip lemma: the spec decoder inverts the fixture
encoder on every input. -/
theorem pb_decode_packbits_encode (x : List Nat) :
    pb_decode (packbits_encode x) = some x :=
  pb_decodeAux_encodeAux x.length x (packbits_encode x).length le_rfl le_rfl

/-- C1: PackBits round-trip — for every byte string `x`, decoding the
output of `packbits_encode(x)` under the spec's PackBits grammar
(control in [0,127] copies control+1 literal bytes; control in
[-127,-1] repeats the next byte 1-control times; -128 is a no-op)
yields exactly `x`. -/
theorem packbits_roundtrip (x : List Nat) :
    pb_decode (packbits_encode x) = some x :=
  pb_decodeAux_encodeAux x.length x (packbits_encode x).length le_rfl le_rfl

/-- Every chunk the encoder emits has a control byte in the allowed
set; the chunk count is bounded by the source length, so `dfuel ≥
s.length` suffices for the checker. -/
theorem controlsOk_encodeAux :
    ∀ (fuel : Nat) (s : List Nat) (dfuel : Nat), s.length ≤ fuel →
      s.length ≤ dfuel →
      controlsOk dfuel (encodeAux fuel s) = true := by
  intro fuel
  induction fuel with
  | zero =>
    intro s dfuel hs _
    rw [List.eq_nil_of_length_eq_zero (Nat.le_zero.mp hs)]
    cases dfuel <;> rfl
  | succ f ih =>
    intro s dfuel hs hd
    cases s with
    | nil => cases dfuel <;> rfl
    | cons x rest =>
      simp only [List.length_cons] at hs hd
      obtain ⟨d, rfl⟩ : ∃ d, dfuel = d + 1 := ⟨dfuel - 1, by omega⟩
      by_cases hrun : 3 ≤ min (leadEq x rest + 1) 128
      · have henc : encodeAux (f + 1) (x :: rest)
            = (257 - min (leadEq x rest + 1) 128) % 256 :: x ::
                encodeAux f (rest.drop (min (leadEq x rest + 1) 128 - 1)) := by
          simp only [encodeAux]
          rw [if_pos hrun]
        set r := min (leadEq x rest + 1) 128 with hrdef
        have hr128 : r ≤ 128 := min_le_right _ _
        have hmod : (257 - r) % 256 = 257 - r := Nat.mod_eq_of_lt (by omega)
        rw [henc, hmod]
        have hstep : controlsOk (d + 1)
              ((257 - r) :: x :: encodeAux f (rest.drop (r - 1)))
            = controlsOk d (encodeAux f (rest.drop (r - 1))) := by
          simp only [controlsOk]
          rw [if_neg (by omega), if_pos (by omega)]
        rw [hstep]
        exact ih (rest.drop (r - 1)) d
          (by simp only [List.length_drop]; omega)
          (by simp only [List.length_drop]; omega)
      · have henc : encodeAux (f + 1) (x :: rest)
            = (litAux 127 rest + 1 - 1) ::
                ((x :: rest).take (litAux 127 rest + 1) ++
                  encodeAux f ((x :: rest).drop (litAux 127 rest + 1))) := by
          simp only [encodeAux]
          rw [if_neg hrun]
        set L := litAux 127 rest + 1 with hLdef
        have hLfuel : L - 1 ≤ 127 := by
          have := litAux_le_fuel 127 rest; omega
        have hLlen : L ≤ rest.length + 1 := by
          have := litAux_le_length 127 rest; omega
        rw [henc]
        have htlen : ((x :: rest).take L).length = L := by
          simp only [List.length_take, List.length_cons]
          omega
        have hLsucc : L - 1 + 1 = L := by omega
        have hcond : L - 1 + 1 ≤
            ((x :: rest).take L ++ encodeAux f ((x :: rest).drop L)).length := by
          simp only [List.length_append, htlen]
          omega
        have hstep : controlsOk (d + 1)
              ((L - 1) :: ((x :: rest).take L ++ encodeAux f ((x :: rest).drop L)))
            = (decide (L - 1 + 1 ≤
                  ((x :: rest).take L ++ encodeAux f ((x :: rest).drop L)).length) &&
                controlsOk d
                  (((x :: rest).take L ++ encodeAux f ((x :: rest).drop L)).drop (L - 1 + 1))) := by
          simp only [controlsOk]
          rw [if_pos hLfuel]
        rw [hstep, hLsucc, List.drop_left' htlen]
        simp only [Bool.and_eq_true, decide_eq_true_eq]
        constructor
        · simp only [List.length_append, htlen]
          omega
        · exact ih ((x :: rest).drop L) d
            (by simp only [List.length_drop, List.length_cons]; omega)
            (by simp only [List.length_drop, List.length_cons]; omega)

/-- C10: every control byte emitted by `packbits_encode` is, as a
signed byte, in [0,127] (a literal run of 1..128 bytes) or in
[-127,-2] (unsigned [129,254], a repeat run of 3..128 bytes); the
no-op control -128 (0x80) and the repeat control -1 (0xFF) never
occur, so a decoder's -128 branch is unreachable on encoder output. -/
theorem packbits_controls_in_range (s : List Nat) :
    controlsOk s.length (packbits_encode s) = true :=
  controlsOk_encodeAux s.length s s.length le_rfl le_rfl

/-- C4: the file produced by `generate_phase0_minimal` is exactly 43
bytes — the 26-byte header (`8BPS`, version 1, 3 channels, height 1,
width 1, depth 8, RGB), three zero 4-byte section-length fields, a
compression code 0 and three 0x00 samples — and a conforming decoder
(modelled from the spec) yields a single-pixel RGB raster of (0,0,0). -/
theorem phase0_minimal_decodes :
    generate_phase0_minimal.length = 43 ∧
    generate_phase0_minimal =
      sig8BPS ++ [0, 1] ++ List.replicate 6 0 ++ [0, 3] ++ [0, 0, 0, 1] ++
        [0, 0, 0, 1] ++ [0, 8] ++ [0, 3] ++ List.replicate 4 0 ++
        List.replicate 4 0 ++ List.replicate 4 0 ++ [0, 0] ++ [0, 0, 0] ∧
    decodeMinimalDoc generate_phase0_minimal = some ⟨1, 1, 3, 8, [[0], [0], [0]]⟩ :=
  ⟨by decide, by decide, by decide⟩

/-- C8: the version-2 minimal file of `generate_phase5_psb_minimal`
encodes the layer-and-mask length as an 8-byte big-endian field where
the version-1 minimal file uses a 4-byte field; with all other content
identical it is exactly 47 bytes, 4 longer than the 43-byte version-1
file (bytes agree before the version field, from the version field to
the layer-and-mask length field, and after it). -/
theorem psb_version_fork :
    generate_phase5_psb_minimal.length = 47 ∧
    generate_phase0_minimal.length = 43 ∧
    generate_phase5_psb_minimal =
      make_header 3 1 1 8 3 2 ++ pack_u32 0 ++ pack_u32 0 ++ pack_u64 0 ++
        pack_u16 0 ++ List.replicate 3 0 ∧
    generate_phase0_minimal =
      make_header 3 1 1 8 3 1 ++ pack_u32 0 ++ pack_u32 0 ++ pack_u32 0 ++
        pack_u16 0 ++ List.replicate 3 0 ∧
    (pack_u64 0).length = (pack_u32 0).length + 4 ∧
    (generate_phase5_psb_minimal.drop 34).take 8 = List.replicate 8 0 ∧
    (generate_phase0_minimal.drop 34).take 4 = List.replicate 4 0 ∧
    generate_phase5_psb_minimal.take 4 = generate_phase0_minimal.take 4 ∧
    (generate_phase5_psb_minimal.drop 6).take 28 =
      (generate_phase0_minimal.drop 6).take 28 ∧
    generate_phase5_psb_minimal.drop 42 = generate_phase0_minimal.drop 38 := by
  refine ⟨by decide, by decide, by decide, by decide, by decide, by decide, by decide,
    by decide, by decide, by decide⟩

/-- C9: for every 8-bit channel value `k ≤ 255` the 16-bit fixture
stores the sample as `k * 257`, which fits in a u16, and the spec's
downsampling rule `v8 = round(v16/257)` recovers exactly `k`. -/
theorem sample16_scaling (k : Nat) (hk : k ≤ 255) :
    store_sample16 k ≤ 65535 ∧ downsample8 (store_sample16 k) = k := by
  unfold store_sample16 downsample8
  constructor
  · omega
  · omega

theorem sample16_scaling_witness :
    200 ≤ 255 ∧ (store_sample16 200 ≤ 65535 ∧ downsample8 (store_sample16 200) = 200) :=
  ⟨by decide, sample16_scaling 200 (by decide)⟩

/-- C7: every layer record of `make_layer_record` and of
`build_layer_record_with_ali` declares an extra-data length that
exactly equals the number of bytes following that field in the record
(the two zero 4-byte length fields, the padded Pascal-string name, and
any ALI bytes), and the Pascal name is padded so that
`1 + len(name) + padding` is a multiple of 4.  The name fits a 1-byte
length prefix and the ALI block is bounded so the length fits a u32. -/
theorem layer_record_framing (top left bottom right : Int) (channels : List Int)
    (blend : List Nat) (opacity : Nat) (name : List Nat) (dls : List Nat)
    (ali : List Nat) (hname : name.length ≤ 255) (hali : ali.length ≤ 4294967000) :
    make_layer_record top left bottom right channels blend opacity name dls
      = mlr_fixed top left bottom right channels blend opacity dls ++
          pack_u32 (mlr_extra name).length ++ mlr_extra name ∧
    build_layer_record_with_ali top left bottom right channels blend opacity name dls ali
      = mlr_fixed top left bottom right channels blend opacity dls ++
          pack_u32 (mlr_extra name ++ ali).length ++ (mlr_extra name ++ ali) ∧
    unpack_u32 (pack_u32 (mlr_extra name).length) = (mlr_extra name).length ∧
    unpack_u32 (pack_u32 (mlr_extra name ++ ali).length) = (mlr_extra name ++ ali).length ∧
    (mlr_extra name).length = 8 + (1 + name.length + layerNamePad name.length) ∧
    (mlr_extra name ++ ali).length
      = 8 + (1 + name.length + layerNamePad name.length) + ali.length ∧
    (1 + name.length + layerNamePad name.length) % 4 = 0 := by
  have hpad : layerNamePad name.length ≤ 3 := by
    unfold layerNamePad
    omega
  have hlen : (mlr_extra name).length = 8 + (1 + name.length + layerNamePad name.length) := by
    simp only [mlr_extra, pack_u32, List.length_append, List.length_cons,
      List.length_replicate, List.length_nil]
    omega
  have hlen2 : (mlr_extra name ++ ali).length
      = 8 + (1 + name.length + layerNamePad name.length) + ali.length := by
    rw [List.length_append, hlen]
  refine ⟨rfl, rfl, ?_, ?_, hlen, hlen2, ?_⟩
  · exact unpack_pack_u32 _ (by omega)
  · rw [hlen2]
    exact unpack_pack_u32 _ (by omega)
  · unfold layerNamePad
    omega

theorem repBytes_length (n : Nat) (b : List Nat) : (repBytes n b).length = n * b.length := by
  induction n with
  | zero => simp [repBytes]
  | succ m ih =>
    simp only [repBytes, List.length_append, ih]
    ring

theorem build_layer_section16_length : (build_layer_section 16).length = 25024 := by
  simp only [build_layer_section, LAYERS16, List.map_cons, List.map_nil,
    List.flatten_cons, List.flatten_nil, p16LayerRecord, p16ChannelTable,
    p16ChannelData, p16DeclaredLen, p16LayerRecord.p16Ali, make_lsct, sig8BIM,
    sig8BPS, keyNorm, keyLsct, layerNamePad, pack_u32, pack_u16, pack_i16,
    List.length_append, List.length_cons, List.length_nil, List.length_replicate,
    repBytes_length, List.append_nil]

theorem lr16_ali_no_pad :
    lr16_ali = sig8BIM ++ keyLr16 ++ pack_u32 (build_layer_section 16).length ++
      build_layer_section 16 := by
  have h : (sig8BIM ++ keyLr16 ++ pack_u32 (build_layer_section 16).length ++
      build_layer_section 16).length = 25036 := by
    rw [List.length_append, build_layer_section16_length, List.length_append,
      List.length_append]
    rfl
  simp only [lr16_ali]
  rw [if_neg (by omega)]

/-- C6: the 16-bit document of `generate_16bit_grouped_psd.py` declares
a layer-info sub-section length of 0 and attaches, directly to the
layer-and-mask section, an ALI block with signature `8BIM` and key
`Lr16` whose length is even (the payload is already even, so no pad
byte is appended); the payload is the complete 5-record layer list in
the normal record grammar (signed-16 count, the records, the channel
data), and each colour layer's per-channel declared dataLength is
`2 + 2 * pixelCount` (here 2050 for the 32x32 layers). -/
theorem lr16_placement :
    lam_content16 = pack_u32 0 ++ pack_u32 0 ++ lr16_ali ∧
    lr16_ali = sig8BIM ++ keyLr16 ++ pack_u32 (build_layer_section 16).length ++
      build_layer_section 16 ∧
    lr16_ali.length % 2 = 0 ∧
    build_layer_section 16 = pack_i16 (LAYERS16.length : Int) ++
      (LAYERS16.map (p16LayerRecord 16)).flatten ++
      (LAYERS16.map p16ChannelData).flatten ∧
    LAYERS16.length = 5 ∧
    pack_i16 (LAYERS16.length : Int) = [0, 5] ∧
    (∀ l ∈ LAYERS16, l.color.isSome = true →
      p16DeclaredLen 16 l = 2 + 2 * (l.w * l.h)) ∧
    (∀ l ∈ LAYERS16, l.color.isSome = true → p16DeclaredLen 16 l = 2050) := by
  refine ⟨rfl, lr16_ali_no_pad, ?_, rfl, by decide, by decide, by decide, by decide⟩
  rw [lr16_ali_no_pad, List.length_append, build_layer_section16_length,
    List.length_append, List.length_append]
  rfl

theorem lr16_placement_witness :
    (⟨[82, 101, 100], some (255, 0, 0, 255), 4, 4, 32, 32, 255, none⟩ : P16Layer) ∈ LAYERS16 ∧
    (⟨[82, 101, 100], some (255, 0, 0, 255), 4, 4, 32, 32, 255, none⟩ : P16Layer).color.isSome = true ∧
    p16DeclaredLen 16 ⟨[82, 101, 100], some (255, 0, 0, 255), 4, 4, 32, 32, 255, none⟩ = 2050 :=
  ⟨by decide, by decide,
    lr16_placement.2.2.2.2.2.2.2 ⟨[82, 101, 100], some (255, 0, 0, 255), 4, 4, 32, 32, 255, none⟩
      (by decide) (by decide)⟩

/-- C2 (failing-input evaluation): `generate_phase3_single_layer`
writes its layer's flags byte as 0x02, whose bit 1 is set — under the
spec's bitmask ("bit1=hidden") the leaf is not visible, so §4.6 tree
compositing contributes nothing and leaves the transparent accumulator
(0,0,0,0); but the embedded Section-5 merged image is all-red
((255,0,0) at every pixel, shown here at flat index 0).  The claimed
equality of the two therefore fails on the code as written (the code's
own comment calls the 0x02 flags byte "visible"). -/
theorem phase3_hidden_flag_divergence :
    phase3_flags = 2 ∧
    Nat.testBit phase3_flags 1 = true ∧
    layerVisible phase3_flags = false ∧
    phase3_composite = (0, 0, 0, 0) ∧
    phase3_merged_pixel 0 = (255, 0, 0) ∧
    phase3_composite.1 ≠ ((255 : ℚ)) := by
  have hvis : layerVisible phase3_flags = false := by decide
  have hcomp : phase3_composite = (0, 0, 0, 0) := by
    rw [phase3_composite, hvis]
    rfl
  refine ⟨rfl, by decide, hvis, hcomp, by decide, ?_⟩
  rw [hcomp]
  norm_num

/-- C3: in the document of `generate_hidden_group_psd.py` the embedded
Section-5 composite equals the paint of the layer list with the Red
leaf (the sole member of the hidden group) entirely removed; every
pixel of the 64x64 canvas is either the white background or the Blue
layer's colour, and the Red layer's colour (255,0,0) appears at no
pixel. -/
theorem hidden_group_composite_suppression :
    hg_composite = paintLayers hg_visibleLayers whiteCanvas ∧
    hg_visibleLayers = [⟨some (0, 0, 255, 255), 4, 4, 32, 32, 255, none, false⟩] ∧
    ∀ py px, py < 64 → px < 64 →
      (hg_composite py px = [0, 0, 255, 255] ∨
        hg_composite py px = [255, 255, 255, 255]) ∧
      hg_composite py px ≠ [255, 0, 0, 255] := by
  refine ⟨rfl, by decide, ?_⟩
  intro py px _ _
  constructor
  · simp only [hg_composite, HG_LAYERS, List.headD, paintLayers, paintLayer]
    split
    · exact Or.inl rfl
    · exact Or.inr rfl
  · simp only [hg_composite, HG_LAYERS, List.headD, paintLayers, paintLayer]
    split
    · simp
    · simp [whiteCanvas]

theorem hidden_group_composite_suppression_witness :
    10 < 64 ∧
    ((hg_composite 10 10 = [0, 0, 255, 255] ∨
        hg_composite 10 10 = [255, 255, 255, 255]) ∧
      hg_composite 10 10 ≠ [255, 0, 0, 255]) :=
  ⟨by decide,
    hidden_group_composite_suppression.2.2 10 10 (by decide) (by decide)⟩

/-- C5: whenever `make_rle_channel_data(raw_data, height)` returns a
block (all per-row encodings fit a u16) and `height > 0` divides
`len(raw_data)`, the block is the u16 compression code 1, then exactly
`height` big-endian u16 entries holding the byte length of the PackBits
encoding of each scanline, then the encoded scanlines in row order; its
total length is `2 + 2*height +` the sum of the entries, and each
encoded scanline PackBits-decodes to exactly
`width = len(raw_data)/height` bytes. -/
theorem rle_channel_framing (raw : List Nat) (height : Nat) (block : List Nat)
    (hpos : 0 < height) (hdvd : height ∣ raw.length)
    (hblock : make_rle_channel_data raw height = some block) :
    block = pack_u16 1 ++
        (((List.range height).map (fun r => packbits_encode (rleRow raw height r))).map
            (fun e => pack_u16 e.length)).flatten ++
        ((List.range height).map (fun r => packbits_encode (rleRow raw height r))).flatten ∧
    block.length = 2 + 2 * height +
        ((List.range height).map
            (fun r => (packbits_encode (rleRow raw height r)).length)).sum ∧
    ∀ r < height,
        pb_decode (packbits_encode (rleRow raw height r)) = some (rleRow raw height r) ∧
        (rleRow raw height r).length = raw.length / height := by
  simp only [make_rle_channel_data] at hblock
  split at hblock
  case isFalse => exact absurd hblock (by simp)
  case isTrue hall =>
    obtain rfl : _ = block := Option.some.inj hblock
    refine ⟨rfl, ?_, ?_⟩
    · simp only [List.length_append, List.length_flatten, List.map_map, pack_u16,
        Function.comp_def, List.length_cons, List.length_nil, List.map_const',
        List.length_map, List.length_range, List.sum_const_nat]
      omega
    · intro r hr
      refine ⟨pb_decode_packbits_encode _, ?_⟩
      simp only [rleRow, List.length_take, List.length_drop]
      have h1 : (r + 1) * (raw.length / height) ≤ height * (raw.length / height) :=
        Nat.mul_le_mul_right _ (by omega)
      have h2 : height * (raw.length / height) = raw.length := Nat.mul_div_cancel' hdvd
      have h3 : r * (raw.length / height) + raw.length / height
          = (r + 1) * (raw.length / height) := by ring
      omega

theorem rle_channel_framing_witness :
    0 < 2 ∧ (2 : Nat) ∣ ([0, 0, 0, 0] : List Nat).length ∧
    make_rle_channel_data [0, 0, 0, 0] 2 = some [0, 1, 0, 3, 0, 3, 1, 0, 0, 1, 0, 0] ∧
    ∀ r < 2, pb_decode (packbits_encode (rleRow [0, 0, 0, 0] 2 r))
        = some (rleRow [0, 0, 0, 0] 2 r) ∧
      (rleRow [0, 0, 0, 0] 2 r).length = ([0, 0, 0, 0] : List Nat).length / 2 :=
  ⟨by decide, by decide, by decide,
    (rle_channel_framing [0, 0, 0, 0] 2 [0, 1, 0, 3, 0, 3, 1, 0, 0, 1, 0, 0]
        (by decide) (by decide) (by decide)).2.2⟩

theorem layer_record_framing_witness :
    ([65] : List Nat).length ≤ 255 ∧ ([1, 2] : List Nat).length ≤ 4294967000 ∧
    (1 + ([65] : List Nat).length + layerNamePad ([65] : List Nat).length) % 4 = 0 :=
  ⟨by decide, by decide,
    (layer_record_framing 0 0 1 1 [0] keyNorm 255 [65] [2] [1, 2]
        (by decide) (by decide)).2.2.2.2.2.2⟩

end PSD
